import Mathlib

/-!
Verification of the COCO AI pair-programmer event pipeline.

This file gives a shallow embedding, in Lean 4, of the parts of the
repository relevant to the pipeline's stated properties:

* the `FindingStore` (the shared `ai_thoughts` list) and the three code
  paths that append to it (`src/app.rs`);
* the Dispatcher (`App::handle_file_events`): the `FileCache` eviction
  policy and the 5 KB size gate (`src/app.rs`);
* the Debouncer (`FileWatcher::process_notify_event`,
  `src/watcher/monitor.rs`);
* the AI worker retry/backoff and response-parsing heuristics
  (`ClaudeProvider`, `src/ai/claude.rs`);
* the `SessionRecorder` event-count cap and compaction
  (`src/session/recorder.rs`) and the JSON serialization round trip
  (`src/session/mod.rs`);
* the `SessionPlayer` delay computation (`src/session/replay.rs`).

Modelling conventions: Rust `String`s become Lean `String`s (lengths are
counted in characters where Rust counts bytes; all inputs used in concrete
statements are ASCII, where the two coincide); `f32`/`f64` arithmetic is
modelled over `ℚ` (every floating-point operation appearing in a proved
statement is exact at the inputs involved, as noted at each definition);
`HashMap` values are association lists; fresh UUIDs and clock readings are
passed in as explicit parameters; the fallible external AI call becomes an
`Except`-valued parameter.
-/

namespace Coco

/-! ## Data model (`src/app.rs`) -/

/-- `Priority` from `src/app.rs`. -/
inductive Priority where
  | Low | Medium | High | Critical
deriving DecidableEq, Repr

/-- `ActionType` from `src/app.rs`. -/
inductive ActionType where
  | Replace | Insert | Delete | Refactor | Optimize | Fix
deriving DecidableEq, Repr

/-- `ThoughtType` from `src/app.rs`. -/
inductive ThoughtType where
  | Analyzing | Suggesting | Warning | Error | Complete | Meta
  | Performance | Security | Style | Architecture
deriving DecidableEq, Repr

/-- `Suggestion` from `src/app.rs`. -/
structure Suggestion where
  id : String
  title : String
  description : String
  code_snippet : Option String
  action_type : ActionType
  priority : Priority
deriving DecidableEq, Repr

/-- `Thought` from `src/app.rs`.  `timestamp : DateTime<Utc>` is modelled
as milliseconds since the epoch, `confidence : f32` over `ℚ`. -/
structure Thought where
  id : String
  timestamp : Int
  thought_type : ThoughtType
  content : String
  file_path : Option String
  line_number : Option Nat
  confidence : ℚ
  suggestions : List Suggestion
deriving DecidableEq, Repr

/-- `AiRequestType` from `src/app.rs`. -/
inductive AiRequestType where
  | Analyze | Suggest | Fix | Optimize | Explain | Meta
deriving DecidableEq, Repr

/-- `AiRequest` from `src/app.rs`; `context : HashMap<String, String>`
is modelled as an association list. -/
structure AiRequest where
  id : String
  request_type : AiRequestType
  content : String
  file_path : Option String
  context : List (String × String)
  priority : Priority
deriving DecidableEq, Repr

/-- `FileEvent` from `src/app.rs`.  The `event_type : notify::EventKind`
field belongs to the external notification collaborator and carries no
information used anywhere in the pipeline, so it is omitted; `path` is the
path rendered as a string (`to_string_lossy`), `timestamp` as epoch
milliseconds. -/
structure FileEvent where
  path : String
  content : String
  timestamp : Int
deriving DecidableEq, Repr

/-! ## Association-list model of `HashMap` -/

/-- `HashMap::insert`: replace the value at an existing key, otherwise
append a new entry.  Keeps one entry per key, so the list length is the
map's `len()`. -/
def insertAssoc (k : String) (v : String) (l : List (String × String)) :
    List (String × String) :=
  if l.any (fun p => p.1 == k) then
    l.map (fun p => if p.1 == k then (k, v) else p)
  else
    l ++ [(k, v)]

/-- `HashMap::get` on the association-list model. -/
def lookupAssoc (k : String) (l : List (String × Nat)) : Option Nat :=
  (l.find? (fun p => p.1 == k)).map (fun p => p.2)

/-- Timestamped insert (the debouncer's `last_events` map). -/
def insertAssocNat (k : String) (v : Nat) (l : List (String × Nat)) :
    List (String × Nat) :=
  if l.any (fun p => p.1 == k) then
    l.map (fun p => if p.1 == k then (k, v) else p)
  else
    l ++ [(k, v)]

/-! ## FindingStore (`ai_thoughts`, `src/app.rs`)

Three code paths append to the shared `ai_thoughts` vector:

* the `AnalysisWorker` success path (`App::handle_ai_requests`, lines
  297–306): `extend` the store with the new thoughts, then if the length
  exceeds 5 drain the oldest excess in one `drain(0..drain_count)` call;
* the `AnalysisWorker` failure path (lines 319–335): `push` a single
  error thought, with no trimming;
* the `App::add_thought` accessor (lines 401–403): `push` a single
  thought, with no trimming. -/

/-- Success path of `App::handle_ai_requests`: `ai_thoughts.extend(thoughts)`
followed by `drain(0..len-5)` whenever the length exceeds 5. -/
def extendAndTrim (store : List Thought) (thoughts : List Thought) :
    List Thought :=
  let s := store ++ thoughts
  if 5 < s.length then s.drop (s.length - 5) else s

/-- `Vec::push` as used by the failure path and by `App::add_thought`. -/
def pushThought (store : List Thought) (t : Thought) : List Thought :=
  store ++ [t]

/-- One append to the FindingStore, through any of the three paths. -/
inductive StoreOp where
  | success (thoughts : List Thought)
  | failure (t : Thought)
  | add (t : Thought)
deriving Repr

/-- Whether an append goes through the success path (the only trimming
path). -/
def StoreOp.viaSuccessPath : StoreOp → Bool
  | .success _ => true
  | .failure _ => false
  | .add _ => false

/-- Effect of one append on the store. -/
def applyStoreOp (store : List Thought) : StoreOp → List Thought
  | .success thoughts => extendAndTrim store thoughts
  | .failure t => pushThought store t
  | .add t => pushThought store t

/-- A concrete thought used for closed statements. -/
def sampleThought : Thought :=
  { id := "t0", timestamp := 0, thought_type := ThoughtType.Analyzing,
    content := "sample", file_path := none, line_number := none,
    confidence := 1/2, suggestions := [] }

/-! ## Dispatcher (`App::handle_file_events`, `src/app.rs` lines 230–285) -/

/-- Shared state touched by one iteration of `App::handle_file_events`
(the session-recording tap only appends to the recorder, handled
separately in the `SessionRecorder` model). -/
structure DispatchState where
  current_file : Option String
  current_code : String
  file_cache : List (String × String)
deriving DecidableEq, Repr

/-- One iteration of `App::handle_file_events` for one `FileEvent`:
update `current_file`/`current_code`, insert into `file_cache` and clear
it entirely when its size exceeds 3, and build an `AiRequest` (kind
`Analyze`, priority `Medium`) only when the content length is below
5000.  `freshId` stands for `uuid::Uuid::new_v4()`. -/
def handle_file_event (st : DispatchState) (event : FileEvent)
    (freshId : String) : DispatchState × Option AiRequest :=
  let path_str := event.path
  let cache0 := insertAssoc path_str event.content st.file_cache
  let cache1 := if 3 < cache0.length then [] else cache0
  let st' : DispatchState :=
    { current_file := some path_str, current_code := event.content,
      file_cache := cache1 }
  let req : Option AiRequest :=
    if event.content.length < 5000 then
      some { id := freshId, request_type := AiRequestType.Analyze,
             content := event.content, file_path := some path_str,
             context := [], priority := Priority.Medium }
    else none
  (st', req)

/-- The cache component of one dispatcher iteration. -/
def dispatchCacheStep (cache : List (String × String))
    (path content : String) : List (String × String) :=
  let cache0 := insertAssoc path content cache
  if 3 < cache0.length then [] else cache0

/-! ## String helpers

Rust's `str` methods are modelled over the character list of a Lean
`String` (Rust indexes bytes, Lean counts characters; they agree on the
ASCII data handled here).  The helpers are written as structural
recursions so that concrete statements evaluate inside the kernel. -/

/-- Substring test: `needle.isInfixOf hay` on character lists, the model
of Rust `str::contains`. -/
def isInfixChars (needle : List Char) : List Char → Bool
  | [] => needle.isEmpty
  | c :: t => needle.isPrefixOf (c :: t) || isInfixChars needle t

/-- Rust `str::contains` (substring). -/
def strContains (hay needle : String) : Bool :=
  isInfixChars needle.toList hay.toList

/-- Rust `str::starts_with`. -/
def strStartsWith (hay pre : String) : Bool :=
  pre.toList.isPrefixOf hay.toList

/-- Rust `str::ends_with` (also covers the single-character pattern
`ends_with(':')`). -/
def strEndsWith (hay suf : String) : Bool :=
  suf.toList.isSuffixOf hay.toList

/-- Rust `str::to_lowercase`, ASCII model. -/
def lowerStr (s : String) : String :=
  String.mk (s.toList.map Char.toLower)

/-- ASCII whitespace, the model of `char::is_whitespace`. -/
def isWhitespaceChar (c : Char) : Bool :=
  c = ' ' || c = '\t' || c = '\n' || c = '\r'

/-- Rust `str::trim` (ASCII whitespace model). -/
def trimStr (s : String) : String :=
  String.mk
    (((s.toList.dropWhile isWhitespaceChar).reverse.dropWhile
        isWhitespaceChar).reverse)

/-- Split a character list at every newline. -/
def splitOnNl : List Char → List (List Char)
  | [] => [[]]
  | c :: t =>
    let r := splitOnNl t
    if c = '\n' then [] :: r else (c :: r.headD []) :: r.tail

/-- Rust `str::lines`: split at newlines, with no trailing empty line
(`\r\n` endings are out of scope of the ASCII `\n` model). -/
def rustLines (s : String) : List String :=
  let parts := splitOnNl s.toList
  let parts := if parts.getLast? = some [] then parts.dropLast else parts
  parts.map String.mk

/-! ## Debouncer (`FileWatcher::process_notify_event`,
`src/watcher/monitor.rs` lines 141–192)

Per-path debouncing: a notification for `path` at instant `now` is
dropped when the recorded last-accepted instant is less than the window
`W` ago; otherwise the per-path timestamp is updated and the file is
read, a successful read emitting a `FileEvent`.  The monotone `Instant`
clock is modelled as `Nat` milliseconds; the file read (an external I/O
collaborator) is passed in as an `Except` value. -/

/-- The debounce test of `process_notify_event`: a notification is
dropped when the map holds a last-accepted instant less than `W` ago. -/
def is_debounced (last_events : List (String × Nat)) (path : String)
    (now W : Nat) : Bool :=
  match lookupAssoc path last_events with
  | some last_time => decide (now - last_time < W)
  | none => false

/-- One path of one notification through
`FileWatcher::process_notify_event`: returns the updated `last_events`
map and the emitted `FileEvent`, if any. -/
def process_notify_path (last_events : List (String × Nat)) (path : String)
    (now W : Nat) (read : Except String String) :
    List (String × Nat) × Option FileEvent :=
  if is_debounced last_events path now W then
    (last_events, none)
  else
    let m := insertAssocNat path now last_events
    match read with
    | Except.ok content =>
        (m, some { path := path, content := content, timestamp := (now : Int) })
    | Except.error _ => (m, none)

/-- Number of `FileEvent`s emitted for one path notified at the given
instants (every read succeeding with `content`), window `W`. -/
def debounceRun (times : List Nat) (path : String) (W : Nat)
    (content : String) : Nat :=
  (times.foldl
    (fun acc now =>
      let r := process_notify_path acc.1 path now W (Except.ok content)
      (r.1, acc.2 + (if r.2.isSome then 1 else 0)))
    (([] : List (String × Nat)), 0)).2

/-! ## AnalysisWorker retry loop (`ClaudeProvider::make_request`,
`src/ai/claude.rs` lines 70–99)

The loop tries `send_request` for `attempt in 0..max_retries`, returning
the first success; after a failure with `attempt < max_retries - 1` it
sleeps `retry_delay * 2^attempt`.  The external HTTP call is the
parameter `call : Nat → Except String String` (attempt index to
outcome); the result records the outcome, the number of attempts made
and the list of backoff sleeps, in milliseconds. -/

/-- The `for attempt in 0..max_retries` loop, iterating over the list of
attempt indices: on the first success return it (counting the attempts
made so far); after a failure that is not the final attempt, record the
backoff sleep `retry_delay * 2^attempt`; when the indices run out,
return the last error. -/
def runAttempts (call : Nat → Except String String)
    (max_retries retry_delay : Nat) :
    List Nat → Option String → Except String String × Nat × List Nat
  | [], last_error =>
      ((match last_error with
        | some e => Except.error e
        | none => Except.error ("All retry attempts failed")), 0, [])
  | attempt :: rest, _ =>
      match call attempt with
      | Except.ok response => (Except.ok response, 1, [])
      | Except.error e =>
          let r := runAttempts call max_retries retry_delay rest (some e)
          (r.1, r.2.1 + 1,
            if attempt < max_retries - 1 then
              retry_delay * 2 ^ attempt :: r.2.2
            else r.2.2)

/-- `ClaudeProvider::make_request` with the provider's configured
`max_retries = 3`, `retry_delay = 1000 ms` (from `ClaudeProvider::new`).
Returns (outcome, attempts made, backoff sleeps). -/
def make_request (call : Nat → Except String String) :
    Except String String × Nat × List Nat :=
  runAttempts call 3 1000 (List.range 3) none

/-! ## Response-parsing heuristics (`src/ai/claude.rs` lines 217–438) -/

/-- `ClaudeProvider::is_section_start`. -/
def is_section_start (line : String) : Bool :=
  strStartsWith line ("1.") ||
  strStartsWith line ("2.") ||
  strStartsWith line ("3.") ||
  strStartsWith line ("4.") ||
  strStartsWith line ("5.") ||
  strStartsWith line ("- ") ||
  strStartsWith line ("* ") ||
  strStartsWith line ("## ") ||
  strStartsWith line ("### ") ||
  (20 < line.length && strEndsWith line (":"))

/-- `ClaudeProvider::split_response_into_sections`. -/
def split_response_into_sections (response : String) : List String :=
  let step := fun (acc : List String × String) (line : String) =>
    let acc :=
      if is_section_start (trimStr line) && !(trimStr acc.2).isEmpty then
        (acc.1 ++ [trimStr acc.2], "")
      else acc
    (acc.1, acc.2 ++ line ++ "\n")
  let r := (rustLines response).foldl step ([], "")
  if (trimStr r.2).isEmpty then r.1 else r.1 ++ [trimStr r.2]

/-- `ClaudeProvider::infer_thought_type`. -/
def infer_thought_type (content : String) (request_type : AiRequestType) :
    ThoughtType :=
  let content_lower := lowerStr content
  if strContains content_lower ("error") || strContains content_lower ("bug")
      || strContains content_lower ("issue") then
    ThoughtType.Error
  else if strContains content_lower ("warning")
      || strContains content_lower ("caution")
      || strContains content_lower ("careful") then
    ThoughtType.Warning
  else if strContains content_lower ("suggest")
      || strContains content_lower ("recommend")
      || strContains content_lower ("consider") then
    ThoughtType.Suggesting
  else if strContains content_lower ("performance")
      || strContains content_lower ("optimization")
      || strContains content_lower ("speed") then
    ThoughtType.Performance
  else if strContains content_lower ("security")
      || strContains content_lower ("vulnerability")
      || strContains content_lower ("safe") then
    ThoughtType.Security
  else if strContains content_lower ("style")
      || strContains content_lower ("format")
      || strContains content_lower ("convention") then
    ThoughtType.Style
  else if strContains content_lower ("architecture")
      || strContains content_lower ("design")
      || strContains content_lower ("pattern") then
    ThoughtType.Architecture
  else
    match request_type with
    | AiRequestType.Analyze => ThoughtType.Analyzing
    | AiRequestType.Suggest => ThoughtType.Suggesting
    | AiRequestType.Fix => ThoughtType.Error
    | AiRequestType.Optimize => ThoughtType.Performance
    | AiRequestType.Explain => ThoughtType.Complete
    | AiRequestType.Meta => ThoughtType.Meta

/-- `ClaudeProvider::calculate_confidence`.  The `f32` accumulator is
modelled over `ℚ`; every step adds or subtracts an exact decimal and the
reachable values (multiples of 1/10 between 3/10 and 9/10) are all exact
in `f32`, mirroring the source computation exactly.  The duplicated
code-fence test reproduces the duplicated `contains` in the source. -/
def calculate_confidence (content : String) : ℚ :=
  let content_lower := lowerStr content
  let confidence : ℚ := 5/10
  let confidence :=
    if strContains content_lower ("should")
        || strContains content_lower ("must") then
      confidence + 2/10
    else confidence
  let confidence :=
    if strContains content_lower ("might")
        || strContains content_lower ("maybe")
        || strContains content_lower ("possibly") then
      confidence - 2/10
    else confidence
  let confidence :=
    if strContains content ("```") || strContains content ("```") then
      confidence + 1/10
    else confidence
  let confidence :=
    if 200 < content.length then confidence + 1/10 else confidence
  min (max confidence 0) 1

/-- `ClaudeProvider::looks_like_suggestion`. -/
def looks_like_suggestion (line : String) : Bool :=
  let lower := lowerStr line
  strContains lower ("consider") ||
  strContains lower ("suggest") ||
  strContains lower ("recommend") ||
  strContains lower ("should") ||
  strContains lower ("could") ||
  strContains lower ("try") ||
  strStartsWith lower ("replace") ||
  strStartsWith lower ("add") ||
  strStartsWith lower ("remove") ||
  strStartsWith lower ("refactor")

/-- `ClaudeProvider::parse_suggestion`; `freshId` stands for the
generated UUID. -/
def parse_suggestion (line : String) (freshId : String) :
    Option Suggestion :=
  let content := trimStr line
  if content.length < 10 then none
  else
    let lower := lowerStr content
    let action_type :=
      if strContains lower ("replace") then ActionType.Replace
      else if strContains lower ("add") || strContains lower ("insert") then
        ActionType.Insert
      else if strContains lower ("remove") || strContains lower ("delete") then
        ActionType.Delete
      else if strContains lower ("refactor") then ActionType.Refactor
      else if strContains lower ("optimize") then ActionType.Optimize
      else ActionType.Fix
    let priority :=
      if strContains lower ("critical") || strContains lower ("must") then
        Priority.Critical
      else if strContains lower ("important")
          || strContains lower ("should") then
        Priority.High
      else if strContains lower ("consider")
          || strContains lower ("could") then
        Priority.Medium
      else Priority.Low
    let title :=
      if 50 < content.length then
        String.mk (content.toList.take 47) ++ "..."
      else content
    some { id := freshId, title := title, description := content,
           code_snippet := none, action_type := action_type,
           priority := priority }

/-- `ClaudeProvider::extract_suggestions`; suggestion UUIDs are drawn
from `freshIds` by position. -/
def extract_suggestions (content : String) (freshIds : Nat → String) :
    List Suggestion :=
  ((rustLines content).foldl
    (fun acc line =>
      if looks_like_suggestion (trimStr line) then
        match parse_suggestion (trimStr line) (freshIds acc.2) with
        | some s => (acc.1 ++ [s], acc.2 + 1)
        | none => (acc.1, acc.2 + 1)
      else acc)
    (([] : List Suggestion), 0)).1

/-- `ClaudeProvider::parse_response_to_thoughts`; thought UUIDs are
drawn from `freshIds` by section position, `now` stands for
`Utc::now()`. -/
def parse_response_to_thoughts (response : String) (request : AiRequest)
    (freshIds : Nat → String) (now : Int) : List Thought :=
  let sections := split_response_into_sections response
  let thoughts :=
    ((sections.foldl
      (fun acc sec =>
        if (trimStr sec).isEmpty then (acc.1, acc.2 + 1)
        else
          let thought : Thought :=
            { id := freshIds acc.2, timestamp := now,
              thought_type := infer_thought_type sec request.request_type,
              content := trimStr sec,
              file_path := request.file_path, line_number := none,
              confidence := calculate_confidence sec,
              suggestions := extract_suggestions sec freshIds }
          (acc.1 ++ [thought], acc.2 + 1))
      (([] : List Thought), 0)).1)
  if thoughts.isEmpty then
    [{ id := freshIds 0, timestamp := now,
       thought_type := ThoughtType.Analyzing,
       content := trimStr response, file_path := request.file_path,
       line_number := none, confidence := 5/10, suggestions := [] }]
  else thoughts

/-- `ClaudeProvider::analyze_code` (`src/ai/claude.rs` lines 443–470):
run the retry loop; on success parse the response into thoughts, on
failure return `Ok` with a single `Error` thought of confidence 0
carrying the failure message — the error is never propagated. -/
def analyze_code (call : Nat → Except String String)
    (request : AiRequest) (freshIds : Nat → String) (now : Int) :
    Except String (List Thought) :=
  match (make_request call).1 with
  | Except.ok response =>
      Except.ok (parse_response_to_thoughts response request freshIds now)
  | Except.error e =>
      Except.ok
        [{ id := freshIds 0, timestamp := now,
           thought_type := ThoughtType.Error,
           content := "AI analysis temporarily unavailable: " ++ e,
           file_path := request.file_path, line_number := none,
           confidence := 0, suggestions := [] }]

/-! ## Session data model (`src/session/mod.rs`) -/

/-- `EventType` from `src/session/mod.rs`. -/
inductive EventType where
  | SessionStarted | SessionEnded | FileChanged | AiRequest | AiResponse
  | UiAction | Error | ConfigChange | ThoughtGenerated
  | SuggestionAccepted | SuggestionRejected
deriving DecidableEq, Repr

/-- A JSON value, the model of `serde_json::Value`.  JSON numbers are
modelled as integers (every number the recorder writes is one); objects
keep their fields in emission order. -/
inductive Json where
  | null : Json
  | bool (b : Bool) : Json
  | num (n : Int) : Json
  | str (s : String) : Json
  | arr (elems : List Json) : Json
  | obj (fields : List (String × Json)) : Json

/-- Field lookup in a JSON object. -/
def Json.getField : Json → String → Option Json
  | Json.obj fields, k => (fields.find? (fun p => p.1 == k)).map (fun p => p.2)
  | _, _ => none

/-- `EventContext` from `src/session/mod.rs`; the `HashMap` is an
association list. -/
structure EventContext where
  file_path : Option String
  line_number : Option Nat
  user_action : Option String
  duration_ms : Option Nat
  metadata : List (String × String)

/-- `EventContext::default`. -/
def EventContext.default : EventContext :=
  { file_path := none, line_number := none, user_action := none,
    duration_ms := none, metadata := [] }

/-- `SessionEvent` from `src/session/mod.rs`; timestamps are epoch
milliseconds. -/
structure SessionEvent where
  id : String
  timestamp : Int
  event_type : EventType
  data : Json
  context : EventContext

/-- `SessionMetadata` from `src/session/mod.rs`. -/
structure SessionMetadata where
  coco_version : String
  working_directory : String
  user : Option String
  ai_provider : String
  total_duration_ms : Option Nat
  total_file_changes : Nat
  total_ai_requests : Nat
  files_analyzed : List String

/-- `Session` from `src/session/mod.rs`. -/
structure Session where
  id : String
  started_at : Int
  ended_at : Option Int
  events : List SessionEvent
  metadata : SessionMetadata

/-! ## SessionRecorder (`src/session/recorder.rs`) -/

/-- The mutable state of a `SessionRecorder` (minus the backing file
path, which only names the write target). -/
structure RecorderState where
  session : Session
  auto_save_interval : Nat
  events_since_save : Nat
  max_events : Nat

/-- The retention count of the overflow rotation in
`record_event_internal`: `(self.max_events as f32 * 0.8) as usize`.
Modelled as `4 * m / 5`, which agrees with the `f32` computation at the
recorder's default (`10000 → 8000`) and at every small multiple of 5
used below (`0.8_f32` exceeds 4/5 by under `1.2e-8`, far below the
rounding step at these magnitudes). -/
def rotate_keep_count (max_events : Nat) : Nat :=
  4 * max_events / 5

/-- `SessionRecorder::record_event_internal`
(`src/session/recorder.rs` lines 101–138): when the event count has
reached `max_events`, drain all but the most recent
`rotate_keep_count max_events` events; then append the freshly built
event and bump the metadata counters. -/
def record_event_internal (st : RecorderState) (event_type : EventType)
    (data : Json) (context : EventContext) (freshId : String) (now : Int) :
    RecorderState :=
  let events :=
    if st.max_events ≤ st.session.events.length then
      st.session.events.drop
        (st.session.events.length - rotate_keep_count st.max_events)
    else st.session.events
  let event : SessionEvent :=
    { id := freshId, timestamp := now, event_type := event_type,
      data := data, context := context }
  let events := events ++ [event]
  let metadata :=
    match event_type with
    | EventType.FileChanged =>
        { st.session.metadata with
          total_file_changes := st.session.metadata.total_file_changes + 1 }
    | EventType.AiRequest =>
        { st.session.metadata with
          total_ai_requests := st.session.metadata.total_ai_requests + 1 }
    | _ => st.session.metadata
  { st with
    session := { st.session with events := events, metadata := metadata } }

/-- The state change of `SessionRecorder::save` (lines 271–289): refresh
`total_duration_ms` from the first event and reset the auto-save
counter.  The file write itself is the external persistence
collaborator. -/
def save_update (st : RecorderState) (now : Int) : RecorderState :=
  let st :=
    match st.session.events.head? with
    | some first_event =>
        let duration := now - first_event.timestamp
        if 0 < duration then
          { st with
            session := { st.session with
              metadata := { st.session.metadata with
                total_duration_ms := some duration.toNat } } }
        else st
    | none => st
  { st with events_since_save := 0 }

/-- `SessionRecorder::record_event_with_context` (lines 84–99): record,
bump the auto-save counter, and save when the interval is reached. -/
def record_event_with_context (st : RecorderState)
    (event_type : EventType) (data : Json) (context : EventContext)
    (freshId : String) (now : Int) : RecorderState :=
  let st := record_event_internal st event_type data context freshId now
  let st := { st with events_since_save := st.events_since_save + 1 }
  if st.auto_save_interval ≤ st.events_since_save then save_update st now
  else st

/-- `SessionRecorder::record_event` (lines 80–82). -/
def record_event (st : RecorderState) (event_type : EventType)
    (data : Json) (freshId : String) (now : Int) : RecorderState :=
  record_event_with_context st event_type data EventContext.default
    freshId now

/-- `SessionRecorder::compress_old_events` (lines 384–412): keep only
the `keep_recent_count` most recent events and insert a single
compression-marker event (kind `ConfigChange`, with the removed count)
at the front. -/
def compress_old_events (st : RecorderState) (keep_recent_count : Nat)
    (freshId : String) (now : Int) : RecorderState :=
  if st.session.events.length ≤ keep_recent_count then st
  else
    let start_index := st.session.events.length - keep_recent_count
    let events := st.session.events.drop start_index
    let compression_event : SessionEvent :=
      { id := freshId, timestamp := now,
        event_type := EventType.ConfigChange,
        data := Json.obj
          [("type", Json.str ("compression")),
           ("events_removed", Json.num start_index),
           ("events_remaining", Json.num keep_recent_count)],
        context := EventContext.default }
    { st with
      session := { st.session with
        events := compression_event :: events } }

/-- The compression-marker shape produced by `compress_old_events`: a
`ConfigChange` event whose payload carries `"type": "compression"`. -/
def isCompressionMarker (e : SessionEvent) : Bool :=
  decide (e.event_type = EventType.ConfigChange) &&
  (match e.data.getField ("type") with
   | some (Json.str s) => s == "compression"
   | _ => false)

/-- One `record_event` call: the event kind, payload, fresh UUID and
timestamp it is invoked with. -/
structure RecordCall where
  event_type : EventType
  data : Json
  freshId : String
  now : Int

/-- Apply a sequence of `record_event` calls. -/
def runRecorder (st : RecorderState) (calls : List RecordCall) :
    RecorderState :=
  calls.foldl
    (fun st c => record_event st c.event_type c.data c.freshId c.now) st

/-! ## Session JSON serialization (`src/session/recorder.rs` `save`,
`src/session/mod.rs` `load_session`)

`save` writes `serde_json::to_string_pretty(&self.session)`;
`load_session` reads the file back through
`serde_json::from_str::<Session>`.  The encoding below is serde's JSON
image of the `Session` type (structs become objects with the fields in
declaration order, `Option` becomes `null`-or-value, enums with unit
variants become their name as a string); the string layer itself —
pretty-printing and re-parsing the `Json` tree, which `serde_json`
round-trips exactly — is abstracted away, with timestamps carried as
integers. -/

/-- Serde's name for each `EventType` variant. -/
def EventType.toName : EventType → String
  | EventType.SessionStarted => "SessionStarted"
  | EventType.SessionEnded => "SessionEnded"
  | EventType.FileChanged => "FileChanged"
  | EventType.AiRequest => "AiRequest"
  | EventType.AiResponse => "AiResponse"
  | EventType.UiAction => "UiAction"
  | EventType.Error => "Error"
  | EventType.ConfigChange => "ConfigChange"
  | EventType.ThoughtGenerated => "ThoughtGenerated"
  | EventType.SuggestionAccepted => "SuggestionAccepted"
  | EventType.SuggestionRejected => "SuggestionRejected"

/-- Deserialization of an `EventType` variant name. -/
def EventType.ofName (s : String) : Option EventType :=
  if s == "SessionStarted" then some EventType.SessionStarted
  else if s == "SessionEnded" then some EventType.SessionEnded
  else if s == "FileChanged" then some EventType.FileChanged
  else if s == "AiRequest" then some EventType.AiRequest
  else if s == "AiResponse" then some EventType.AiResponse
  else if s == "UiAction" then some EventType.UiAction
  else if s == "Error" then some EventType.Error
  else if s == "ConfigChange" then some EventType.ConfigChange
  else if s == "ThoughtGenerated" then some EventType.ThoughtGenerated
  else if s == "SuggestionAccepted" then some EventType.SuggestionAccepted
  else if s == "SuggestionRejected" then some EventType.SuggestionRejected
  else none

/-- Serde encoding of `Option` (None ↦ null). -/
def encodeOption (enc : α → Json) : Option α → Json
  | none => Json.null
  | some v => enc v

/-- Serde decoding of `Option`. -/
def decodeOption (dec : Json → Option α) (j : Json) : Option (Option α) :=
  match j with
  | Json.null => some none
  | _ => (dec j).map some

/-- Decoding of a JSON string. -/
def decodeString : Json → Option String
  | Json.str s => some s
  | _ => none

/-- Decoding of an unsigned integer (`usize`/`u64`). -/
def decodeNat : Json → Option Nat
  | Json.num n => if 0 ≤ n then some n.toNat else none
  | _ => none

/-- Decoding of a timestamp. -/
def decodeInt : Json → Option Int
  | Json.num n => some n
  | _ => none

/-- Serde encoding of `EventContext`. -/
def encodeContext (c : EventContext) : Json :=
  Json.obj
    [("file_path", encodeOption Json.str c.file_path),
     ("line_number", encodeOption (fun n : Nat => Json.num n) c.line_number),
     ("user_action", encodeOption Json.str c.user_action),
     ("duration_ms", encodeOption (fun n : Nat => Json.num n) c.duration_ms),
     ("metadata", Json.obj (c.metadata.map (fun p => (p.1, Json.str p.2))))]

/-- Effectful list traversal over `Option` (the decoding of a JSON
array element-by-element, failing when any element fails). -/
def optionTraverse (f : α → Option β) : List α → Option (List β)
  | [] => some []
  | x :: xs =>
      (f x).bind (fun y => (optionTraverse f xs).map (fun ys => y :: ys))

/-- Decoding of the `metadata` string map. -/
def decodeStringMap : Json → Option (List (String × String))
  | Json.obj fields =>
      optionTraverse (fun p => (decodeString p.2).map (fun v => (p.1, v)))
        fields
  | _ => none

/-- Serde decoding of `EventContext`. -/
def decodeContext (j : Json) : Option EventContext := do
  let fp ← decodeOption decodeString (← j.getField ("file_path"))
  let ln ← decodeOption decodeNat (← j.getField ("line_number"))
  let ua ← decodeOption decodeString (← j.getField ("user_action"))
  let dm ← decodeOption decodeNat (← j.getField ("duration_ms"))
  let md ← decodeStringMap (← j.getField ("metadata"))
  pure { file_path := fp, line_number := ln, user_action := ua,
         duration_ms := dm, metadata := md }

/-- Serde encoding of `SessionEvent`. -/
def encodeEvent (e : SessionEvent) : Json :=
  Json.obj
    [("id", Json.str e.id),
     ("timestamp", Json.num e.timestamp),
     ("event_type", Json.str e.event_type.toName),
     ("data", e.data),
     ("context", encodeContext e.context)]

/-- Serde decoding of `SessionEvent`. -/
def decodeEvent (j : Json) : Option SessionEvent := do
  let id ← decodeString (← j.getField ("id"))
  let ts ← decodeInt (← j.getField ("timestamp"))
  let ty ← EventType.ofName (← decodeString (← j.getField ("event_type")))
  let dt ← j.getField ("data")
  let cx ← decodeContext (← j.getField ("context"))
  pure { id := id, timestamp := ts, event_type := ty, data := dt,
         context := cx }

/-- Serde encoding of `SessionMetadata`. -/
def encodeMetadata (m : SessionMetadata) : Json :=
  Json.obj
    [("coco_version", Json.str m.coco_version),
     ("working_directory", Json.str m.working_directory),
     ("user", encodeOption Json.str m.user),
     ("ai_provider", Json.str m.ai_provider),
     ("total_duration_ms", encodeOption (fun n : Nat => Json.num n)
        m.total_duration_ms),
     ("total_file_changes", Json.num m.total_file_changes),
     ("total_ai_requests", Json.num m.total_ai_requests),
     ("files_analyzed", Json.arr (m.files_analyzed.map Json.str))]

/-- Decoding of a string array. -/
def decodeStringList : Json → Option (List String)
  | Json.arr elems => optionTraverse decodeString elems
  | _ => none

/-- Serde decoding of `SessionMetadata`. -/
def decodeMetadata (j : Json) : Option SessionMetadata := do
  let cv ← decodeString (← j.getField ("coco_version"))
  let wd ← decodeString (← j.getField ("working_directory"))
  let us ← decodeOption decodeString (← j.getField ("user"))
  let ap ← decodeString (← j.getField ("ai_provider"))
  let td ← decodeOption decodeNat (← j.getField ("total_duration_ms"))
  let fc ← decodeNat (← j.getField ("total_file_changes"))
  let ar ← decodeNat (← j.getField ("total_ai_requests"))
  let fa ← decodeStringList (← j.getField ("files_analyzed"))
  pure { coco_version := cv, working_directory := wd, user := us,
         ai_provider := ap, total_duration_ms := td,
         total_file_changes := fc, total_ai_requests := ar,
         files_analyzed := fa }

/-- Serde encoding of `Session` — the JSON document `save` writes. -/
def encodeSession (s : Session) : Json :=
  Json.obj
    [("id", Json.str s.id),
     ("started_at", Json.num s.started_at),
     ("ended_at", encodeOption (fun n : Int => Json.num n) s.ended_at),
     ("events", Json.arr (s.events.map encodeEvent)),
     ("metadata", encodeMetadata s.metadata)]

/-- Decoding of the event array. -/
def decodeEventList : Json → Option (List SessionEvent)
  | Json.arr elems => optionTraverse decodeEvent elems
  | _ => none

/-- Serde decoding of `Session` — what `load_session` recovers from the
written artifact. -/
def decodeSession (j : Json) : Option Session := do
  let id ← decodeString (← j.getField ("id"))
  let sa ← decodeInt (← j.getField ("started_at"))
  let ea ← decodeOption decodeInt (← j.getField ("ended_at"))
  let ev ← decodeEventList (← j.getField ("events"))
  let md ← decodeMetadata (← j.getField ("metadata"))
  pure { id := id, started_at := sa, ended_at := ea, events := ev,
         metadata := md }

/-! ## SessionPlayer (`src/session/replay.rs`) -/

/-- `PlaybackOptions` from `src/session/replay.rs`;
`speed_multiplier : f64` is modelled over `ℚ`. -/
structure PlaybackOptions where
  speed_multiplier : ℚ
  skip_events : List EventType
  only_events : Option (List EventType)
  max_delay_ms : Option Nat
  interactive : Bool
  show_timing : Bool
  filter_file_path : Option String
  start_from_event : Option Nat
  end_at_event : Option Nat

/-- `PlaybackOptions::default` (lines 29–43). -/
def PlaybackOptions.default : PlaybackOptions :=
  { speed_multiplier := 1, skip_events := [], only_events := none,
    max_delay_ms := some 5000, interactive := false, show_timing := true,
    filter_file_path := none, start_from_event := none,
    end_at_event := none }

/-- Rust's saturating `as u64` cast from `f64`: negatives to 0, values
beyond `u64::MAX` to `u64::MAX`, otherwise truncation toward zero. -/
def f64_as_u64 (q : ℚ) : Nat :=
  if q < 0 then 0 else min ⌊q⌋.toNat (2 ^ 64 - 1)

/-- The suspension performed by `SessionPlayer::play_event` (lines
197–214) before rendering one event, in milliseconds (0 when it does
not sleep): the target delay `(event_ts - session_start) / speed` is
computed, and only under a `max_delay_ms` cap is it clamped and slept,
skipping the sleep in interactive mode.  The `f64` division is modelled
over `ℚ`; at the binary speed factors appearing in the statements below
(1 and 2) the `f64` division is exact. -/
def play_event_delay (opts : PlaybackOptions)
    (session_start event_ts : Int) : Nat :=
  let event_offset : Int := event_ts - session_start
  let target_delay_ms :=
    f64_as_u64 ((event_offset : ℚ) / opts.speed_multiplier)
  match opts.max_delay_ms with
  | some max_delay =>
      let actual_delay := min target_delay_ms max_delay
      if 0 < actual_delay ∧ opts.interactive = false then actual_delay
      else 0
  | none => 0

/-- `SessionPlayer::filter_events` (lines 163–195). -/
def filter_events (opts : PlaybackOptions)
    (events : List SessionEvent) : List SessionEvent :=
  events.filter (fun event =>
    if opts.skip_events.contains event.event_type then false
    else if (match opts.only_events with
             | some only => !(only.contains event.event_type)
             | none => false) then false
    else
      match opts.filter_file_path with
      | some filter_path =>
          (match event.context.file_path with
           | some event_path => strContains event_path filter_path
           | none => false)
      | none => true)

/-- The sleeps performed by one `SessionPlayer::play` run (lines
86–139), in event order: the filtered events (cut off at
`end_at_event`) each contribute their `play_event_delay`. -/
def play_delays (session : Session) (opts : PlaybackOptions) :
    List Nat :=
  let events_to_play := filter_events opts session.events
  let events_to_play :=
    match opts.end_at_event with
    | some end_index => events_to_play.take end_index
    | none => events_to_play
  events_to_play.map
    (fun e => play_event_delay opts session.started_at e.timestamp)

/-- The state change `SessionRecorder::save` makes to the session value
before serializing it (refreshing `total_duration_ms` from the first
event). -/
def save_session_value (s : Session) (now : Int) : Session :=
  match s.events.head? with
  | some first_event =>
      let duration := now - first_event.timestamp
      if 0 < duration then
        { s with metadata := { s.metadata with
            total_duration_ms := some duration.toNat } }
      else s
  | none => s

/-! ## Specification-side definitions and concrete fixtures -/

/-- The confidence formula as the specification words it (for comparison
with `calculate_confidence`, which is translated from the source):
start at 0.5, add 0.2 if the lower-cased text contains "should" or
"must", subtract 0.2 if it contains "might", "maybe" or "possibly", add
0.1 for an embedded code fence, add 0.1 for length over 200, clamp to
[0, 1]. -/
def spec_confidence (text : String) : ℚ :=
  let lower := lowerStr text
  let v : ℚ := 5/10
    + (if strContains lower ("should") || strContains lower ("must") then
         2/10 else 0)
    - (if strContains lower ("might") || strContains lower ("maybe")
          || strContains lower ("possibly") then 2/10 else 0)
    + (if strContains text ("```") then 1/10 else 0)
    + (if 200 < text.length then 1/10 else 0)
  min (max v 0) 1

/-- A concrete request for closed statements. -/
def sampleRequest : AiRequest :=
  { id := "r0", request_type := AiRequestType.Analyze, content := "code",
    file_path := some ("a.rs"), context := [], priority := Priority.Medium }

/-- A concrete session metadata value. -/
def sampleMetadata : SessionMetadata :=
  { coco_version := "0.1.0", working_directory := "/w", user := none,
    ai_provider := "anthropic", total_duration_ms := none,
    total_file_changes := 0, total_ai_requests := 0, files_analyzed := [] }

/-- A concrete session event (a `UiAction` at instant `i`). -/
def sampleEvent (i : Int) : SessionEvent :=
  { id := "e", timestamp := i, event_type := EventType.UiAction,
    data := Json.null, context := EventContext.default }

/-- A recorder, its `max_events` lowered to 5 via `set_max_events`, that
has already reached the limit. -/
def fullRecorder : RecorderState :=
  { session :=
      { id := "s", started_at := 0, ended_at := none,
        events := [sampleEvent 1, sampleEvent 2, sampleEvent 3,
                   sampleEvent 4, sampleEvent 5],
        metadata := sampleMetadata },
    auto_save_interval := 10, events_since_save := 0, max_events := 5 }

/-- A concrete one-event session for closed statements. -/
def sampleSession : Session :=
  { id := "s", started_at := 0, ended_at := none,
    events := [sampleEvent 100], metadata := sampleMetadata }

/-! ## Theorems -/

/-- The success-path append never leaves more than 5 thoughts. -/
theorem extendAndTrim_length_le (store thoughts : List Thought) :
    (extendAndTrim store thoughts).length ≤ 5 := by
  simp only [extendAndTrim]
  split
  · simp only [List.length_drop]
    omega
  · omega

/-- Folding success-path appends from a store of at most 5 keeps the
bound. -/
theorem foldl_success_length_le (ops : List StoreOp) :
    ∀ store : List Thought, store.length ≤ 5 →
      (∀ op ∈ ops, op.viaSuccessPath = true) →
      (ops.foldl applyStoreOp store).length ≤ 5 := by
  induction ops with
  | nil => intro store h _; simpa using h
  | cons op rest ih =>
      intro store h hall
      have hop := hall op (by simp)
      have hrest : ∀ o ∈ rest, o.viaSuccessPath = true := by
        intro o ho; exact hall o (by simp [ho])
      cases op with
      | success thoughts =>
          exact ih (extendAndTrim store thoughts)
            (extendAndTrim_length_le store thoughts) hrest
      | failure t => simp [StoreOp.viaSuccessPath] at hop
      | add t => simp [StoreOp.viaSuccessPath] at hop

/-- C1 (corrected).  The FindingStore bound holds for the success path
only: any sequence of success-path appends leaves at most 5 thoughts,
and each success-path append retains exactly the most recent thoughts
(the oldest excess dropped in one drain), the result's length being the
combined length capped at 5.  (The failure path and `add_thought` push
without trimming; see the counterexample.) -/
theorem finding_store_success_path_bound :
    (∀ ops : List StoreOp, (∀ op ∈ ops, op.viaSuccessPath = true) →
        (ops.foldl applyStoreOp []).length ≤ 5)
    ∧ (∀ store thoughts : List Thought,
        extendAndTrim store thoughts
          = (store ++ thoughts).drop ((store ++ thoughts).length - 5)
        ∧ (extendAndTrim store thoughts).length
          = min ((store ++ thoughts).length) 5) := by
  constructor
  · intro ops hall
    exact foldl_success_length_le ops [] (by simp) hall
  · intro store thoughts
    constructor
    · simp only [extendAndTrim]
      split
      · rfl
      · rename_i h
        rw [show (store ++ thoughts).length - 5 = 0 from by omega,
          List.drop_zero]
    · simp only [extendAndTrim]
      split
      · simp only [List.length_drop, min_def]
        split <;> omega
      · simp only [min_def]
        split <;> omega

/-- Witness for `finding_store_success_path_bound` at concrete inputs:
one success-path append of six thoughts stays within the bound, and the
trim equation holds at a concrete overfull store. -/
theorem finding_store_success_path_bound_witness :
    (([StoreOp.success (List.replicate 6 sampleThought)].foldl
        applyStoreOp []).length ≤ 5)
    ∧ extendAndTrim (List.replicate 4 sampleThought)
        (List.replicate 3 sampleThought)
      = (List.replicate 4 sampleThought ++ List.replicate 3 sampleThought).drop
          ((List.replicate 4 sampleThought
              ++ List.replicate 3 sampleThought).length - 5) :=
  ⟨finding_store_success_path_bound.1 _ (by simp [StoreOp.viaSuccessPath]),
   (finding_store_success_path_bound.2 _ _).1⟩

/-- C1 counterexample: six appends through the untrimmed `add_thought`
path (`App::add_thought` just pushes) leave 6 > 5 thoughts in the
store, refuting the claim that every append sequence keeps the length
at most 5. -/
theorem finding_store_push_exceeds_five :
    5 < ((List.replicate 6 (StoreOp.add sampleThought)).foldl
        applyStoreOp []).length := by
  simp [applyStoreOp, pushThought, List.replicate]

/-- C4.  The dispatcher size gate: a file event at or above 5000 bytes
produces no analysis request; one strictly below produces exactly the
`Analyze`/`Medium` request for its content. -/
theorem dispatcher_size_gate :
    (∀ (st : DispatchState) (event : FileEvent) (freshId : String),
        5000 ≤ event.content.length →
        (handle_file_event st event freshId).2 = none)
    ∧ (∀ (st : DispatchState) (event : FileEvent) (freshId : String),
        event.content.length < 5000 →
        (handle_file_event st event freshId).2
          = some { id := freshId, request_type := AiRequestType.Analyze,
                   content := event.content,
                   file_path := some event.path, context := [],
                   priority := Priority.Medium }) := by
  constructor
  · intro st event freshId h
    simp only [handle_file_event]
    rw [if_neg (by omega)]
  · intro st event freshId h
    simp only [handle_file_event]
    rw [if_pos h]

/-- Length of a concrete 5000-character content string. -/
theorem bigString_length :
    (String.mk (List.replicate 5000 'a')).length = 5000 := by
  show (List.replicate 5000 'a').length = 5000
  rw [List.length_replicate]

/-- Witness for `dispatcher_size_gate`: a 5000-character file is gated
out, a short one produces the `Analyze`/`Medium` request. -/
theorem dispatcher_size_gate_witness :
    (handle_file_event
        { current_file := none, current_code := "", file_cache := [] }
        { path := "big.rs", content := String.mk (List.replicate 5000 'a'),
          timestamp := 0 } ("u1")).2 = none
    ∧ (handle_file_event
        { current_file := none, current_code := "", file_cache := [] }
        { path := "a.rs", content := "fn main()", timestamp := 0 } ("u2")).2
      = some { id := "u2", request_type := AiRequestType.Analyze,
               content := "fn main()", file_path := some ("a.rs"),
               context := [], priority := Priority.Medium } :=
  ⟨dispatcher_size_gate.1 _ _ _ bigString_length.ge,
   dispatcher_size_gate.2 _ _ _ (by decide)⟩

/-- Each dispatcher cache step leaves at most 3 entries. -/
theorem dispatchCacheStep_length_le (cache : List (String × String))
    (path content : String) :
    (dispatchCacheStep cache path content).length ≤ 3 := by
  simp only [dispatchCacheStep]
  split
  · simp
  · omega

/-- C6.  The `FileCache` never exceeds 3 entries at an operation
boundary, and an insertion that pushes it past 3 clears it to empty. -/
theorem file_cache_bound :
    (∀ events : List (String × String),
        (events.foldl (fun c pv => dispatchCacheStep c pv.1 pv.2)
            []).length ≤ 3)
    ∧ (∀ (cache : List (String × String)) (path content : String),
        3 < (insertAssoc path content cache).length →
        dispatchCacheStep cache path content = []) := by
  constructor
  · intro events
    have go : ∀ (l : List (String × String)) (c : List (String × String)),
        c.length ≤ 3 →
        (l.foldl (fun c pv => dispatchCacheStep c pv.1 pv.2) c).length ≤ 3 := by
      intro l
      induction l with
      | nil => intro c h; simpa using h
      | cons pv rest ih =>
          intro c _
          exact ih (dispatchCacheStep c pv.1 pv.2)
            (dispatchCacheStep_length_le c pv.1 pv.2)
    exact go events [] (by simp)
  · intro cache path content h
    simp only [dispatchCacheStep]
    rw [if_pos h]

/-- Witness for `file_cache_bound`: inserting a fourth key clears the
cache. -/
theorem file_cache_bound_witness :
    dispatchCacheStep [("a", "1"), ("b", "2"), ("c", "3")] ("d") ("4") = [] :=
  file_cache_bound.2 _ _ _ (by decide)

/-- C5.  The debouncer drops a notification arriving less than `W`
after the last accepted one for the same path (leaving the map
untouched); otherwise it updates the per-path timestamp and emits a
`FileEvent` (when the read succeeds); and the `t = 0, 50, 100, 400`,
`W = 300` scenario emits exactly 2 events. -/
theorem debouncer_window :
    (∀ (m : List (String × Nat)) (path : String) (now W : Nat)
        (read : Except String String) (last_time : Nat),
        lookupAssoc path m = some last_time → now - last_time < W →
        process_notify_path m path now W read = (m, none))
    ∧ (∀ (m : List (String × Nat)) (path : String) (now W : Nat)
        (content : String),
        (∀ last_time, lookupAssoc path m = some last_time →
            W ≤ now - last_time) →
        process_notify_path m path now W (Except.ok content)
          = (insertAssocNat path now m,
             some { path := path, content := content,
                    timestamp := (now : Int) }))
    ∧ debounceRun [0, 50, 100, 400] ("a.rs") 300 ("code") = 2 := by
  refine ⟨?_, ?_, ?_⟩
  · intro m path now W read last_time h1 h2
    have hd : is_debounced m path now W = true := by
      simp [is_debounced, h1, h2]
    simp [process_notify_path, hd]
  · intro m path now W content h
    have hd : is_debounced m path now W = false := by
      unfold is_debounced
      cases hl : lookupAssoc path m with
      | none => rfl
      | some last_time =>
          simpa using h last_time hl
    simp [process_notify_path, hd]
  · decide

/-- Witness for `debouncer_window` at concrete inputs: a notification
60 ms after the accepted one is dropped; one 350 ms after is emitted. -/
theorem debouncer_window_witness :
    process_notify_path [("a.rs", 40)] ("a.rs") 100 300 (Except.ok ("x"))
      = ([("a.rs", 40)], none)
    ∧ process_notify_path [("a.rs", 40)] ("a.rs") 390 300 (Except.ok ("x"))
      = (insertAssocNat ("a.rs") 390 [("a.rs", 40)],
         some { path := "a.rs", content := "x", timestamp := (390 : Int) }) :=
  ⟨debouncer_window.1 _ _ _ _ _ 40 (by decide) (by decide),
   debouncer_window.2.1 _ _ _ _ _
     (fun lt hlt => by
        have : lt = 40 := by
          have := hlt
          simp [lookupAssoc] at this
          omega
        omega)⟩

/-- C3.  When every attempt of the external call fails, `make_request`
makes exactly 3 attempts (no 4th), sleeping 1000 ms then 2000 ms
between them, and returns the final error; `analyze_code` then returns
`Ok` (no error propagation) with exactly one `Error` thought of
confidence 0 carrying the failure message. -/
theorem worker_fail_forward :
    ∀ (call : Nat → Except String String) (msgs : Nat → String)
      (request : AiRequest) (freshIds : Nat → String) (now : Int),
      (∀ i, i < 3 → call i = Except.error (msgs i)) →
      (make_request call).2.1 = 3
      ∧ (make_request call).2.2 = [1000, 2000]
      ∧ (make_request call).1 = Except.error (msgs 2)
      ∧ analyze_code call request freshIds now
          = Except.ok
              [{ id := freshIds 0, timestamp := now,
                 thought_type := ThoughtType.Error,
                 content := "AI analysis temporarily unavailable: "
                   ++ msgs 2,
                 file_path := request.file_path, line_number := none,
                 confidence := 0, suggestions := [] }] := by
  intro call msgs request freshIds now h
  have h0 := h 0 (by omega)
  have h1 := h 1 (by omega)
  have h2 := h 2 (by omega)
  have hr : List.range 3 = [0, 1, 2] := rfl
  have hm : make_request call
      = (Except.error (msgs 2), 3, [1000, 2000]) := by
    simp [make_request, hr, runAttempts, h0, h1, h2]
  refine ⟨by rw [hm], by rw [hm], by rw [hm], ?_⟩
  simp [analyze_code, hm]

/-- Witness for `worker_fail_forward`: a call that always fails with
"boom" yields 3 attempts, backoffs [1000, 2000] and the single error
thought. -/
theorem worker_fail_forward_witness :
    (make_request (fun _ => Except.error ("boom"))).2.1 = 3
    ∧ (make_request (fun _ => Except.error ("boom"))).2.2 = [1000, 2000]
    ∧ (make_request (fun _ => Except.error ("boom"))).1
      = Except.error ("boom")
    ∧ analyze_code (fun _ => Except.error ("boom")) sampleRequest
        (fun _ => "id") 0
      = Except.ok
          [{ id := "id", timestamp := 0,
             thought_type := ThoughtType.Error,
             content := "AI analysis temporarily unavailable: "
               ++ "boom",
             file_path := sampleRequest.file_path, line_number := none,
             confidence := 0, suggestions := [] }] :=
  worker_fail_forward (fun _ => Except.error ("boom")) (fun _ => "boom")
    sampleRequest (fun _ => "id") 0 (fun _ _ => rfl)

/-- C9.  The computed section confidence agrees, for every section
text, with the specification's formula: 0.5, +0.2 for "should"/"must",
−0.2 for "might"/"maybe"/"possibly", +0.1 for a code fence, +0.1 for
length over 200, clamped to [0, 1]. -/
theorem confidence_matches_spec :
    ∀ content : String,
      calculate_confidence content = spec_confidence content := by
  intro content
  simp only [calculate_confidence, spec_confidence, Bool.or_self]
  split_ifs <;> norm_num

/-- C10.  With no `max_delay_ms` cap, a `play` run performs no sleeps at
all, whatever the speed, timestamps, filters or interactive flag. -/
theorem player_no_cap_no_sleep :
    ∀ (session : Session) (opts : PlaybackOptions),
      opts.max_delay_ms = none → (play_delays session opts).sum = 0 := by
  intro session opts h
  apply List.sum_eq_zero
  intro x hx
  simp only [play_delays] at hx
  rcases List.mem_map.1 (by
    cases he : opts.end_at_event with
    | some e => exact List.mem_of_mem_take (by simpa [he] using hx)
    | none => simpa [he] using hx) with ⟨e, _, hex⟩
  rw [← hex]
  simp [play_event_delay, h]

/-- Witness for `player_no_cap_no_sleep` at a concrete session and
options with the cap removed. -/
theorem player_no_cap_no_sleep_witness :
    (play_delays sampleSession
        { PlaybackOptions.default with max_delay_ms := none }).sum = 0 :=
  player_no_cap_no_sleep sampleSession
    { PlaybackOptions.default with max_delay_ms := none } rfl

/-- C8 counterexample: at session offset 20000 ms with the default
5000 ms cap, the speed-2.0 delay is 5000, not half of the speed-1.0
delay (which is also 5000): clamping happens after the halving, so the
clamped delays do not halve. -/
theorem replay_halving_fails_at_cap :
    ¬ (play_event_delay
          { PlaybackOptions.default with speed_multiplier := 2 } 0 20000
        = play_event_delay PlaybackOptions.default 0 20000 / 2) := by
  have e2 : play_event_delay
      { PlaybackOptions.default with speed_multiplier := 2 } 0 20000
      = 5000 := by
    norm_num [play_event_delay, f64_as_u64, PlaybackOptions.default]
  have e1 : play_event_delay PlaybackOptions.default 0 20000 = 5000 := by
    norm_num [play_event_delay, f64_as_u64, PlaybackOptions.default]
  rw [e1, e2]
  omega

/-- C8 (corrected).  With a cap and interactive mode off, the slept
delay equals `min ⌊(event_ts − session_start)/speed⌋ max_delay`; at
speed 1.0 that is `min offset max_delay`, and at speed 2.0 it is
`min (offset / 2) max_delay` — the pre-clamp target halves (rounding
down), and the cap applies after the halving. -/
theorem replay_delay_halves_before_clamp :
    ∀ (session_start event_ts : Int) (max_delay : Nat),
      0 ≤ event_ts - session_start →
      event_ts - session_start ≤ 2 ^ 63 →
      play_event_delay
          { PlaybackOptions.default with max_delay_ms := some max_delay }
          session_start event_ts
        = min (event_ts - session_start).toNat max_delay
      ∧ play_event_delay
          { PlaybackOptions.default with
            speed_multiplier := 2
            max_delay_ms := some max_delay }
          session_start event_ts
        = min ((event_ts - session_start).toNat / 2) max_delay := by
  intro s t maxd hnn hle
  have hq0 : (0 : ℚ) ≤ ((t - s : Int) : ℚ) := by exact_mod_cast hnn
  have hfl1 : ⌊((t - s : Int) : ℚ)⌋ = t - s := Int.floor_intCast _
  have hfl2 : ⌊((t - s : Int) : ℚ) / 2⌋ = (t - s) / 2 := by
    have := Rat.floor_intCast_div_natCast (t - s) 2
    simpa using this
  have htn : ((t - s) / 2).toNat = (t - s).toNat / 2 := by omega
  have hb1 : (t - s).toNat ≤ 2 ^ 64 - 1 := by omega
  have hb2 : (t - s).toNat / 2 ≤ 2 ^ 64 - 1 := by omega
  have e1 : f64_as_u64 (((t - s : Int) : ℚ) / 1) = (t - s).toNat := by
    rw [div_one]
    simp only [f64_as_u64, hfl1]
    rw [if_neg (by exact not_lt.2 hq0)]
    exact min_eq_left hb1
  have e2 : f64_as_u64 (((t - s : Int) : ℚ) / 2) = (t - s).toNat / 2 := by
    simp only [f64_as_u64, hfl2]
    rw [if_neg (not_lt.2 (div_nonneg hq0 (by norm_num)))]
    rw [htn]
    exact min_eq_left hb2
  constructor
  · simp only [play_event_delay, PlaybackOptions.default, e1]
    rcases Nat.eq_zero_or_pos (min (t - s).toNat maxd) with hz | hp
    · simp [hz]
    · simp [hp]
  · simp only [play_event_delay, PlaybackOptions.default, e2]
    rcases Nat.eq_zero_or_pos (min ((t - s).toNat / 2) maxd) with hz | hp
    · simp [hz]
    · simp [hp]

/-- The rotation retention is strictly below the cap. -/
theorem rotate_keep_count_lt (max_events : Nat) (h : 1 ≤ max_events) :
    rotate_keep_count max_events < max_events := by
  unfold rotate_keep_count
  omega

/-- `save_update` touches neither the event list nor the cap. -/
theorem save_update_preserves (st : RecorderState) (now : Int) :
    (save_update st now).session.events = st.session.events
    ∧ (save_update st now).max_events = st.max_events := by
  cases hh : st.session.events.head? with
  | none => simp [save_update, hh]
  | some e =>
      constructor <;>
      · simp only [save_update, hh]
        split <;> simp

/-- One internal record keeps the event count within the cap. -/
theorem record_event_internal_length (st : RecorderState)
    (ty : EventType) (d : Json) (cx : EventContext) (freshId : String)
    (now : Int) (h1 : 1 ≤ st.max_events)
    (h2 : st.session.events.length ≤ st.max_events) :
    (record_event_internal st ty d cx freshId now).session.events.length
      ≤ st.max_events := by
  have hk := rotate_keep_count_lt st.max_events h1
  simp only [record_event_internal]
  split
  · simp only [List.length_append, List.length_drop, List.length_cons,
      List.length_nil]
    omega
  · simp only [List.length_append, List.length_cons, List.length_nil]
    omega

/-- One `record_event` call keeps the count within the cap and leaves
the cap itself unchanged. -/
theorem record_event_step (st : RecorderState) (c : RecordCall)
    (h1 : 1 ≤ st.max_events)
    (h2 : st.session.events.length ≤ st.max_events) :
    (record_event st c.event_type c.data c.freshId c.now).session.events.length
      ≤ st.max_events
    ∧ (record_event st c.event_type c.data c.freshId c.now).max_events
      = st.max_events := by
  simp only [record_event, record_event_with_context]
  split
  · constructor
    · rw [(save_update_preserves _ _).1]
      exact record_event_internal_length st c.event_type c.data
        EventContext.default c.freshId c.now h1 h2
    · rw [(save_update_preserves _ _).2]
      rfl
  · constructor
    · exact record_event_internal_length st c.event_type c.data
        EventContext.default c.freshId c.now h1 h2
    · rfl

/-- C2 (corrected).  The session event count never exceeds
`max_events` under any sequence of `record_event` calls; but the
overflow rotation inside `record_event_internal` retains the
`rotate_keep_count` (⌊0.8·max⌋) most recent events and then appends the
newly recorded event — it inserts no marker event.  The
marker-inserting compaction (retained tail plus one `ConfigChange`
marker carrying the removed count) exists only in the separate
`compress_old_events` method, which `record_event` never calls. -/
theorem recorder_cap_and_rotation :
    (∀ (st : RecorderState) (calls : List RecordCall),
        1 ≤ st.max_events →
        st.session.events.length ≤ st.max_events →
        (runRecorder st calls).session.events.length ≤ st.max_events)
    ∧ (∀ (st : RecorderState) (ty : EventType) (d : Json)
        (cx : EventContext) (freshId : String) (now : Int),
        st.max_events ≤ st.session.events.length →
        (record_event_internal st ty d cx freshId now).session.events
          = st.session.events.drop
              (st.session.events.length - rotate_keep_count st.max_events)
            ++ [{ id := freshId, timestamp := now, event_type := ty,
                  data := d, context := cx }])
    ∧ (∀ (st : RecorderState) (keep : Nat) (freshId : String) (now : Int),
        keep < st.session.events.length →
        (compress_old_events st keep freshId now).session.events
          = { id := freshId, timestamp := now,
              event_type := EventType.ConfigChange,
              data := Json.obj
                [("type", Json.str ("compression")),
                 ("events_removed",
                   Json.num ((st.session.events.length - keep : Nat) : Int)),
                 ("events_remaining", Json.num keep)],
              context := EventContext.default }
            :: st.session.events.drop (st.session.events.length - keep)) := by
  refine ⟨?_, ?_, ?_⟩
  · intro st calls h1 h2
    have go : ∀ (cs : List RecordCall) (s : RecorderState),
        s.max_events = st.max_events → 1 ≤ s.max_events →
        s.session.events.length ≤ s.max_events →
        (runRecorder s cs).session.events.length ≤ st.max_events := by
      intro cs
      induction cs with
      | nil =>
          intro s heq _ hle
          simpa [runRecorder, heq] using hle
      | cons c rest ih =>
          intro s heq hone hle
          have hs := record_event_step s c hone hle
          have := ih (record_event s c.event_type c.data c.freshId c.now)
            (by rw [hs.2, heq]) (by rw [hs.2]; exact hone)
            (by rw [hs.2]; exact hs.1)
          simpa [runRecorder] using this
    exact go calls st rfl h1 h2
  · intro st ty d cx freshId now h
    simp only [record_event_internal]
    rw [if_pos h]
  · intro st keep freshId now h
    simp only [compress_old_events]
    rw [if_neg (by omega)]

/-- Witness for `recorder_cap_and_rotation` at the concrete full
recorder: a further record keeps the count at 5; the internal overflow
rotation and `compress_old_events` produce their stated shapes. -/
theorem recorder_cap_and_rotation_witness :
    (runRecorder fullRecorder
        [{ event_type := EventType.UiAction, data := Json.null,
           freshId := "x", now := 7 }]).session.events.length
      ≤ fullRecorder.max_events
    ∧ (record_event_internal fullRecorder EventType.UiAction Json.null
        EventContext.default ("n") 9).session.events
      = fullRecorder.session.events.drop
          (fullRecorder.session.events.length
            - rotate_keep_count fullRecorder.max_events)
        ++ [{ id := "n", timestamp := 9,
              event_type := EventType.UiAction, data := Json.null,
              context := EventContext.default }]
    ∧ (compress_old_events fullRecorder 2 ("m") 9).session.events
      = { id := "m", timestamp := 9,
          event_type := EventType.ConfigChange,
          data := Json.obj
            [("type", Json.str ("compression")),
             ("events_removed",
               Json.num ((fullRecorder.session.events.length - 2 : Nat) : Int)),
             ("events_remaining", Json.num 2)],
          context := EventContext.default }
        :: fullRecorder.session.events.drop
            (fullRecorder.session.events.length - 2) :=
  ⟨recorder_cap_and_rotation.1 fullRecorder _ (by decide) (by decide),
   recorder_cap_and_rotation.2.1 fullRecorder _ _ _ _ _ (by decide),
   recorder_cap_and_rotation.2.2 fullRecorder 2 ("m") 9 (by decide)⟩

/-- C2 counterexample: recording a `FileChanged` event on the full
5-event recorder rotates and appends, leaving 5 events and **no**
compression marker anywhere — where the claim requires the retained
list to include one marker event summarizing the removed count. -/
theorem record_event_overflow_without_marker :
    (record_event fullRecorder EventType.FileChanged Json.null ("e6")
        6).session.events.length = 5
    ∧ (record_event fullRecorder EventType.FileChanged Json.null ("e6")
        6).session.events.countP isCompressionMarker = 0 := by
  decide

/-- Variant names round-trip through serde's string encoding. -/
theorem EventType.ofName_toName (t : EventType) :
    EventType.ofName t.toName = some t := by
  cases t <;> rfl

/-- Optional strings round-trip. -/
theorem decodeOption_str (o : Option String) :
    decodeOption decodeString (encodeOption Json.str o) = some o := by
  cases o <;> rfl

/-- Optional unsigned integers round-trip. -/
theorem decodeOption_nat (o : Option Nat) :
    decodeOption decodeNat (encodeOption (fun n : Nat => Json.num n) o)
      = some o := by
  cases o with
  | none => rfl
  | some n => simp [encodeOption, decodeOption, decodeNat]

/-- Optional timestamps round-trip. -/
theorem decodeOption_int (o : Option Int) :
    decodeOption decodeInt (encodeOption (fun n : Int => Json.num n) o)
      = some o := by
  cases o <;> rfl

/-- Unsigned integers round-trip. -/
theorem decodeNat_num (n : Nat) : decodeNat (Json.num n) = some n := by
  simp [decodeNat]

/-- JSON strings decode to themselves. -/
theorem decodeString_str (s : String) : decodeString (Json.str s) = some s :=
  rfl

/-- The context string map round-trips. -/
theorem decodeStringMap_encode (m : List (String × String)) :
    decodeStringMap (Json.obj (m.map (fun p => (p.1, Json.str p.2))))
      = some m := by
  induction m with
  | nil => rfl
  | cons p rest ih =>
      simp only [List.map_cons, decodeStringMap, optionTraverse] at *
      simp [decodeString_str, ih]

/-- String arrays round-trip. -/
theorem decodeStringList_encode (l : List String) :
    decodeStringList (Json.arr (l.map Json.str)) = some l := by
  induction l with
  | nil => rfl
  | cons s rest ih =>
      simp only [List.map_cons, decodeStringList, optionTraverse] at *
      simp [decodeString_str, ih]

/-- `EventContext` round-trips through its serde encoding. -/
theorem decodeContext_encode (c : EventContext) :
    decodeContext (encodeContext c) = some c := by
  simp [decodeContext, encodeContext, Json.getField, List.find?,
    decodeOption_str, decodeOption_nat, decodeStringMap_encode]

/-- `SessionEvent` round-trips through its serde encoding. -/
theorem decodeEvent_encode (e : SessionEvent) :
    decodeEvent (encodeEvent e) = some e := by
  simp [decodeEvent, encodeEvent, Json.getField, List.find?,
    decodeString, decodeInt, EventType.ofName_toName, decodeContext_encode]

/-- Event arrays round-trip. -/
theorem decodeEventList_encode (l : List SessionEvent) :
    decodeEventList (Json.arr (l.map encodeEvent)) = some l := by
  induction l with
  | nil => rfl
  | cons e rest ih =>
      simp only [List.map_cons, decodeEventList, optionTraverse] at *
      simp [decodeEvent_encode, ih]

/-- `SessionMetadata` round-trips through its serde encoding. -/
theorem decodeMetadata_encode (m : SessionMetadata) :
    decodeMetadata (encodeMetadata m) = some m := by
  simp [decodeMetadata, encodeMetadata, Json.getField, List.find?,
    decodeString, decodeNat_num, decodeOption_str, decodeOption_nat,
    decodeStringList_encode]

/-- `Session` round-trips through its serde encoding. -/
theorem decodeSession_encode (s : Session) :
    decodeSession (encodeSession s) = some s := by
  simp [decodeSession, encodeSession, Json.getField, List.find?,
    decodeString, decodeInt, decodeOption_int, decodeEventList_encode,
    decodeMetadata_encode]

/-- C7.  `save()` followed immediately by deserializing the written
JSON reproduces the saved session exactly — in particular an identical
event list and identical metadata counters; and the pre-save duration
refresh touches neither the events nor the counters, so they are those
of the recorded session. -/
theorem session_save_round_trip :
    ∀ (s : Session) (now : Int),
      decodeSession (encodeSession (save_session_value s now))
        = some (save_session_value s now)
      ∧ (save_session_value s now).events = s.events
      ∧ (save_session_value s now).metadata.total_file_changes
        = s.metadata.total_file_changes
      ∧ (save_session_value s now).metadata.total_ai_requests
        = s.metadata.total_ai_requests
      ∧ (save_session_value s now).metadata.files_analyzed
        = s.metadata.files_analyzed := by
  intro s now
  refine ⟨decodeSession_encode _, ?_, ?_, ?_, ?_⟩ <;>
  · simp only [save_session_value]
    cases hh : s.events.head? with
    | none => simp
    | some e =>
        simp only []
        split <;> simp

/-- Witness for `session_save_round_trip` at the concrete one-event
session. -/
theorem session_save_round_trip_witness :
    decodeSession (encodeSession (save_session_value sampleSession 250))
      = some (save_session_value sampleSession 250)
    ∧ (save_session_value sampleSession 250).events
      = sampleSession.events :=
  ⟨(session_save_round_trip sampleSession 250).1,
   (session_save_round_trip sampleSession 250).2.1⟩

/-- Witness for `replay_delay_halves_before_clamp` at offset 7 ms, cap
5000 ms: delays 7 (speed 1.0) and 3 (speed 2.0). -/
theorem replay_delay_halves_before_clamp_witness :
    play_event_delay
        { PlaybackOptions.default with max_delay_ms := some 5000 } 0 7
      = min (7 - 0 : Int).toNat 5000
    ∧ play_event_delay
        { PlaybackOptions.default with
          speed_multiplier := 2
          max_delay_ms := some 5000 } 0 7
      = min ((7 - 0 : Int).toNat / 2) 5000 :=
  replay_delay_halves_before_clamp 0 7 5000 (by decide) (by decide)

end Coco
